import Mathlib

/-!
Verification of the mmWave presence-sensor logger (scripts/mmwave_logger.py).

The development shallowly embeds the logger: the frame parser, the CSV
quote escaping, the 10-second debounce state machine, and the session
loop with daily log rotation and reconnect-on-serial-error handling.
Strings model decoded, stripped lines; monotonic clock readings are
modelled as rationals; UTC calendar dates are modelled as opaque strings
supplied with each read; the log directory is modelled as an association
list from file name (date) to file contents.
-/

namespace Mmwave

/-! ## Frame parser (lines 72-77 of mmwave_logger.py) -/

/-- Characters of the sentinel that line.startswith checks. -/
def sentinelChars : List Char := ['$', 'J', 'Y', 'B', 'S', 'S', ',']

/-- Models Python str.startswith on explicit character lists. -/
def startsWithChars : List Char → List Char → Bool
  | [], _ => true
  | _ :: _, [] => false
  | a :: ps, b :: ls => a == b && startsWithChars ps ls

/-- Accumulator pass for comma splitting. -/
def splitCommaAux : List Char → List Char → List String
  | [], acc => [String.mk acc.reverse]
  | c :: rest, acc =>
      if c = ',' then String.mk acc.reverse :: splitCommaAux rest []
      else splitCommaAux rest (c :: acc)

/-- Models Python line.split with a comma separator: every comma splits,
empty fields are preserved, the empty string yields one empty field. -/
def splitComma (s : String) : List String :=
  splitCommaAux s.data []

/-- Embeds the parsing block: raw starts as the empty string; if the line
starts with the sentinel and has at least two comma-separated fields, raw
becomes the second field, taken verbatim with no validation. -/
def parseLine (line : String) : String :=
  if startsWithChars sentinelChars line.data then
    match splitComma line with
    | _ :: tok :: _ => tok
    | _ => ""
  else ""

/-! ## CSV quote escaping (line 98) -/

/-- Models line.replace applied to one double quote, producing two:
each double-quote character is doubled, all others pass through. -/
def escapeQuotes : List Char → List Char
  | [] => []
  | c :: rest =>
      if c = '"' then '"' :: '"' :: escapeQuotes rest
      else c :: escapeQuotes rest

/-- Left-to-right non-overlapping replacement of a doubled double quote
by a single one, the inverse direction of the escaping. -/
def unescapeQuotes : List Char → List Char
  | [] => []
  | [c] => [c]
  | c :: d :: rest =>
      if c = '"' ∧ d = '"' then '"' :: unescapeQuotes rest
      else c :: unescapeQuotes (d :: rest)

/-- String-level escaping, as applied to the raw line before it is
embedded in the quoted CSV field. -/
def escapeRaw (s : String) : String :=
  String.mk (escapeQuotes s.data)

/-- String-level unescaping. -/
def unescapeRaw (s : String) : String :=
  String.mk (unescapeQuotes s.data)

/-! ## Debounce state machine (lines 41-44 and 79-96) -/

/-- The three persistent debounce variables. -/
structure DebounceState where
  debounced : String
  candidate : String
  candidate_since : ℚ
deriving DecidableEq, Repr

/-- Console transition tags printed on promotion. -/
inductive Direction
  | ARRIVED
  | LEFT
deriving DecidableEq, Repr

/-- Hold time, in seconds. -/
def DEBOUNCE_SECONDS : ℚ := 10

/-- One debounce update for one parsed token at one monotonic instant,
returning the new state and the emitted transition tag, if any. Mirrors
the branch structure of the source: empty tokens are skipped; an unknown
debounced value is initialised immediately; a token equal to the current
candidate but different from the debounced value promotes once the hold
time has elapsed; any other disagreeing token restarts the candidate;
agreement with the debounced value re-arms the candidate timer. -/
def observe (s : DebounceState) (raw : String) (now : ℚ) :
    DebounceState × Option Direction :=
  if raw = "" then (s, none)
  else if s.debounced = "" then
    ({ debounced := raw, candidate := raw, candidate_since := now }, none)
  else if raw ≠ s.debounced then
    if raw = s.candidate then
      if DEBOUNCE_SECONDS ≤ now - s.candidate_since then
        ({ s with debounced := raw },
          some (if raw = "1" then Direction.ARRIVED else Direction.LEFT))
      else (s, none)
    else ({ s with candidate := raw, candidate_since := now }, none)
  else ({ s with candidate := raw, candidate_since := now }, none)

/-- Runs the debounce machine over a timed token sequence, collecting
emitted transitions in order. -/
def runDeb : DebounceState → List (String × ℚ) → DebounceState × List Direction
  | s, [] => (s, [])
  | s, (tok, t) :: rest =>
      let r := observe s tok t
      let r2 := runDeb r.1 rest
      (r2.1, r.2.toList ++ r2.2)

/-- The state reached after a timed token sequence. -/
def runObs (s : DebounceState) (l : List (String × ℚ)) : DebounceState :=
  (runDeb s l).1

/-! ## Log files and the session loop (lines 25-123) -/

/-- One line of a daily CSV file: the header, or one observation row.
A row keeps the fields the claims are about: the UTC calendar date of
its timestamp, the parsed raw token, the debounced token at write time,
and the original raw line. -/
inductive Entry
  | header
  | record (utcDate raw debTok rawLine : String)
deriving DecidableEq, Repr

/-- True on observation rows, false on the header. -/
def Entry.isRec : Entry → Bool
  | Entry.header => false
  | Entry.record _ _ _ _ => true

/-- The log directory: file name (the date) paired with file contents. -/
abbrev Fs := List (String × List Entry)

/-- Contents of a file, none when it does not exist. -/
def fsLookup : Fs → String → Option (List Entry)
  | [], _ => none
  | (n, es) :: rest, name =>
      if n = name then some es else fsLookup rest name

/-- Appends one line to a file, creating the file when absent; mirrors a
write on a handle opened in append mode. -/
def fsAppend : Fs → String → Entry → Fs
  | [], name, e => [(name, [e])]
  | (n, es) :: rest, name, e =>
      if n = name then (n, es ++ [e]) :: rest
      else (n, es) :: fsAppend rest name e

/-- Creates an empty file when absent and leaves an existing one alone;
mirrors opening a path in append mode without writing. -/
def fsEnsure : Fs → String → Fs
  | [], name => [(name, [])]
  | (n, es) :: rest, name =>
      if n = name then (n, es) :: rest
      else (n, es) :: fsEnsure rest name

/-- Number of observation rows in one file. -/
def entryRecords (es : List Entry) : ℕ :=
  (es.filter Entry.isRec).length

/-- Total number of observation rows across the directory. -/
def recordCount (fs : Fs) : ℕ :=
  (fs.map (fun p => entryRecords p.2)).sum

/-- State the loop carries: the date naming the open file, the log
directory, the debounce variables, and a counter of how many serial
connections have been created (incremented by every reconnect). -/
structure Sess where
  today : String
  fs : Fs
  deb : DebounceState
  connGen : ℕ
deriving DecidableEq, Repr

/-- Startup, lines 26-44: compute the current date, note whether the log
file already exists, open it in append mode (creating it when absent),
and write the header only when the file is new; the debounce variables
start empty. -/
def initSess (fs0 : Fs) (startDate : String) : Sess :=
  let preexists := (fsLookup fs0 startDate).isSome
  let fs1 := fsEnsure fs0 startDate
  let fs2 := if preexists then fs1 else fsAppend fs1 startDate Entry.header
  { today := startDate, fs := fs2,
    deb := { debounced := "", candidate := "", candidate_since := 0 },
    connGen := 0 }

/-- One observable outcome of a loop iteration: a successful read of a
stripped line, carrying the UTC date and monotonic instant sampled in
that iteration, or a serial exception whose later reconnect attempt
either succeeds or itself raises. -/
inductive Ev
  | line (text : String) (utcDate : String) (mono : ℚ)
  | readErr (reconnectOk : Bool)
deriving DecidableEq, Repr

/-- Body of one successful iteration, lines 62-113: an empty line is
skipped; otherwise the token is parsed, the debounce state updated, one
row is written to the currently open file, and only then is the UTC date
compared with today: on a change the loop closes the file, opens the new
date in append mode and writes a header row unconditionally. -/
def stepLine (st : Sess) (text utcDate : String) (mono : ℚ) : Sess :=
  if text = "" then st
  else
    let raw := parseLine text
    let deb := (observe st.deb raw mono).1
    let fs1 := fsAppend st.fs st.today (Entry.record utcDate raw deb.debounced text)
    if utcDate ≠ st.today then
      let fs2 := fsAppend (fsEnsure fs1 utcDate) utcDate Entry.header
      { st with today := utcDate, fs := fs2, deb := deb }
    else
      { st with fs := fs1, deb := deb }

/-- One loop iteration, lines 60-123. A serial exception is caught: the
handler sleeps, closes the old connection and opens a new one, touching
nothing else; when that reopening itself raises, no handler is left and
the process dies, modelled as none. -/
def stepEv (st : Sess) : Ev → Option Sess
  | Ev.line text utcDate mono => some (stepLine st text utcDate mono)
  | Ev.readErr ok =>
      if ok then some { st with connGen := st.connGen + 1 } else none

/-- Runs the loop over a sequence of iteration outcomes; none means the
process terminated on an uncaught exception. -/
def runSess : Sess → List Ev → Option Sess
  | st, [] => some st
  | st, e :: rest =>
      match stepEv st e with
      | some st1 => runSess st1 rest
      | none => none

/-- True on events that deliver a non-empty line. -/
def isDataLine : Ev → Bool
  | Ev.line text _ _ => text ≠ ""
  | Ev.readErr _ => false

/-- True on events whose iteration does not die reconnecting: ordinary
reads, and serial errors whose reconnect attempt succeeds. -/
def reconnectsOk : Ev → Bool
  | Ev.line _ _ _ => true
  | Ev.readErr ok => ok

/-! ## Helper lemmas about the debounce machine -/

theorem runObs_nil (s : DebounceState) : runObs s [] = s := rfl

theorem runObs_cons (s : DebounceState) (tok : String) (t : ℚ)
    (rest : List (String × ℚ)) :
    runObs s ((tok, t) :: rest) = runObs (observe s tok t).1 rest := rfl

theorem runDeb_cons (s : DebounceState) (tok : String) (t : ℚ)
    (rest : List (String × ℚ)) :
    runDeb s ((tok, t) :: rest) =
      ((runDeb (observe s tok t).1 rest).1,
        (observe s tok t).2.toList ++ (runDeb (observe s tok t).1 rest).2) := rfl

/-- Every debounce update either leaves the debounced value alone or
stores the current raw token, which is then non-empty. -/
theorem observe_debounced_cases (s : DebounceState) (raw : String) (now : ℚ) :
    (observe s raw now).1.debounced = s.debounced ∨
      ((observe s raw now).1.debounced = raw ∧ raw ≠ "") := by
  unfold observe
  split_ifs <;> simp_all

/-- A known debounced value stays known across one update. -/
theorem observe_debounced_ne_empty (s : DebounceState) (raw : String) (now : ℚ)
    (hd : s.debounced ≠ "") : (observe s raw now).1.debounced ≠ "" := by
  rcases observe_debounced_cases s raw now with h | ⟨h, hraw⟩
  · rw [h]; exact hd
  · rw [h]; exact hraw

/-- A known debounced value stays known across any run. -/
theorem runObs_debounced_ne_empty (l : List (String × ℚ)) :
    ∀ s : DebounceState, s.debounced ≠ "" → (runObs s l).debounced ≠ "" := by
  induction l with
  | nil => intro s hs; exact hs
  | cons p rest ih =>
      intro s hs
      obtain ⟨tok, t⟩ := p
      rw [runObs_cons]
      exact ih _ (observe_debounced_ne_empty s tok t hs)

/-- When the debounced value is known and one update changes it, the
raw token equals the pending candidate, differs from the debounced
value, the hold time has elapsed since candidate acquisition, and the
new debounced value is that token. -/
theorem observe_promote (s : DebounceState) (raw : String) (now : ℚ)
    (hd : s.debounced ≠ "")
    (hch : (observe s raw now).1.debounced ≠ s.debounced) :
    raw = s.candidate ∧ raw ≠ s.debounced ∧
      DEBOUNCE_SECONDS ≤ now - s.candidate_since ∧
      (observe s raw now).1.debounced = raw := by
  unfold observe at hch ⊢
  split_ifs at hch ⊢ <;> simp_all

/-- Every update on a non-empty token either leaves the candidate and
its acquisition instant untouched while the token already equals the
candidate, or stores the token as candidate with the current instant. -/
theorem observe_cand_cases (s : DebounceState) (raw : String) (now : ℚ)
    (h : raw ≠ "") :
    ((observe s raw now).1.candidate = s.candidate ∧
      (observe s raw now).1.candidate_since = s.candidate_since ∧
      raw = s.candidate) ∨
    ((observe s raw now).1.candidate = raw ∧
      (observe s raw now).1.candidate_since = now) := by
  unfold observe
  split_ifs <;> simp_all

/-- Provenance of the candidate after a run of non-empty tokens: either
the candidate and its acquisition instant are inherited from the start
state and every fed token agreed with it, or some fed pair is exactly
the surviving candidate with its acquisition instant and every later
token agreed with it. -/
theorem runObs_cand_provenance (l : List (String × ℚ)) :
    ∀ s0 : DebounceState, (∀ p ∈ l, p.1 ≠ "") →
      ((runObs s0 l).candidate = s0.candidate ∧
        (runObs s0 l).candidate_since = s0.candidate_since ∧
        ∀ p ∈ l, p.1 = (runObs s0 l).candidate) ∨
      (∃ l1 l2, l = l1 ++ ((runObs s0 l).candidate, (runObs s0 l).candidate_since) :: l2 ∧
        ∀ p ∈ l2, p.1 = (runObs s0 l).candidate) := by
  induction l with
  | nil =>
      intro s0 _
      left
      exact ⟨rfl, rfl, by simp⟩
  | cons p rest ih =>
      intro s0 h
      obtain ⟨tok, t⟩ := p
      have htok : tok ≠ "" := h (tok, t) (by simp)
      have hrest : ∀ q ∈ rest, q.1 ≠ "" := fun q hq => h q (List.mem_cons_of_mem _ hq)
      rw [runObs_cons]
      rcases ih (observe s0 tok t).1 hrest with ⟨hc, hs, hall⟩ | ⟨l1, l2, heq, hall⟩
      · rcases observe_cand_cases s0 tok t htok with ⟨hc0, hs0, htokc⟩ | ⟨hc0, hs0⟩
        · left
          refine ⟨hc.trans hc0, hs.trans hs0, ?_⟩
          intro q hq
          rcases List.mem_cons.1 hq with rfl | hq'
          · rw [hc, hc0]; exact htokc
          · exact hall q hq'
        · right
          refine ⟨[], rest, ?_, hall⟩
          rw [hc, hs, hc0, hs0]
          simp
      · right
        refine ⟨(tok, t) :: l1, l2, ?_, hall⟩
        rw [List.cons_append]
        exact congrArg (List.cons (tok, t)) heq

/-! ## Helper lemmas about the escaping -/

theorem unescapeQuotes_cons_of_ne (c : Char) (l : List Char) (hc : c ≠ '"') :
    unescapeQuotes (c :: l) = c :: unescapeQuotes l := by
  cases l with
  | nil => rfl
  | cons d rs => simp [unescapeQuotes, hc]

/-- The doubled-quote encoding is undone exactly by the left-to-right
halving of quote pairs. -/
theorem unescapeQuotes_escapeQuotes (l : List Char) :
    unescapeQuotes (escapeQuotes l) = l := by
  induction l with
  | nil => rfl
  | cons c rest ih =>
      by_cases hc : c = '"'
      · subst hc
        simp [escapeQuotes, unescapeQuotes, ih]
      · rw [escapeQuotes]
        rw [if_neg hc]
        rw [unescapeQuotes_cons_of_ne c _ hc, ih]

/-! ## Helper lemmas about the log directory -/

theorem fsLookup_fsAppend_self (fs : Fs) (n : String) (e : Entry) :
    fsLookup (fsAppend fs n e) n = some ((fsLookup fs n).getD [] ++ [e]) := by
  induction fs with
  | nil => simp [fsAppend, fsLookup]
  | cons p rest ih =>
      obtain ⟨m, es⟩ := p
      by_cases hm : m = n
      · simp [fsAppend, fsLookup, hm]
      · simp [fsAppend, fsLookup, hm, ih]

theorem fsLookup_fsAppend_ne (fs : Fs) (n n' : String) (e : Entry) (h : n' ≠ n) :
    fsLookup (fsAppend fs n e) n' = fsLookup fs n' := by
  induction fs with
  | nil => simp [fsAppend, fsLookup, Ne.symm h]
  | cons p rest ih =>
      obtain ⟨m, es⟩ := p
      by_cases hm : m = n
      · subst hm
        simp [fsAppend, fsLookup, Ne.symm h]
      · simp [fsAppend, fsLookup, hm, ih]

theorem fsLookup_fsEnsure_self (fs : Fs) (n : String) :
    fsLookup (fsEnsure fs n) n = some ((fsLookup fs n).getD []) := by
  induction fs with
  | nil => simp [fsEnsure, fsLookup]
  | cons p rest ih =>
      obtain ⟨m, es⟩ := p
      by_cases hm : m = n
      · simp [fsEnsure, fsLookup, hm]
      · simp [fsEnsure, fsLookup, hm, ih]

theorem fsLookup_fsEnsure_ne (fs : Fs) (n n' : String) (h : n' ≠ n) :
    fsLookup (fsEnsure fs n) n' = fsLookup fs n' := by
  induction fs with
  | nil => simp [fsEnsure, fsLookup, Ne.symm h]
  | cons p rest ih =>
      obtain ⟨m, es⟩ := p
      by_cases hm : m = n
      · subst hm
        simp [fsEnsure, fsLookup, Ne.symm h]
      · simp [fsEnsure, fsLookup, hm, ih]

theorem entryRecords_append_one (es : List Entry) (e : Entry) :
    entryRecords (es ++ [e]) = entryRecords es + (if e.isRec then 1 else 0) := by
  cases he : e.isRec <;> simp [entryRecords, List.filter_append, he]

theorem recordCount_cons (m : String) (es : List Entry) (rest : Fs) :
    recordCount ((m, es) :: rest) = entryRecords es + recordCount rest := by
  simp [recordCount]

theorem recordCount_fsAppend (fs : Fs) (n : String) (e : Entry) :
    recordCount (fsAppend fs n e) = recordCount fs + (if e.isRec then 1 else 0) := by
  induction fs with
  | nil =>
      cases he : e.isRec <;> simp [fsAppend, recordCount, entryRecords, he]
  | cons p rest ih =>
      obtain ⟨m, es⟩ := p
      by_cases hm : m = n
      · simp [fsAppend, hm, recordCount_cons, entryRecords_append_one]
        omega
      · simp [fsAppend, hm, recordCount_cons, ih]
        omega

theorem recordCount_fsEnsure (fs : Fs) (n : String) :
    recordCount (fsEnsure fs n) = recordCount fs := by
  induction fs with
  | nil => simp [fsEnsure, recordCount, entryRecords]
  | cons p rest ih =>
      obtain ⟨m, es⟩ := p
      by_cases hm : m = n
      · simp [fsEnsure, hm]
      · simp [fsEnsure, hm, recordCount_cons, ih]

/-- Every processed line adds one observation row when it is non-empty
and none when it is empty, whether or not the file rotates. -/
theorem recordCount_stepLine (st : Sess) (text utcDate : String) (m : ℚ) :
    recordCount (stepLine st text utcDate m).fs =
      recordCount st.fs + (if text = "" then 0 else 1) := by
  unfold stepLine
  split_ifs with h1 h2 <;>
    simp [recordCount_fsAppend, recordCount_fsEnsure, Entry.isRec, h1]

/-! ## Helper lemmas for the sustained-token scenario -/

/-- Once the debounced value is the present token, further present
tokens only re-arm the timer: no transition is emitted and the
debounced value stays put. -/
theorem runDeb_ones_stable (ts : List ℚ) :
    ∀ s : DebounceState, s.debounced = "1" →
      (runDeb s (ts.map fun t => ("1", t))).2 = [] ∧
      (runDeb s (ts.map fun t => ("1", t))).1.debounced = "1" := by
  induction ts with
  | nil => intro s hs; exact ⟨rfl, hs⟩
  | cons t rest ih =>
      intro s hs
      have hobs : observe s "1" t =
          ({ s with candidate := "1", candidate_since := t }, none) := by
        unfold observe
        rw [hs]
        simp
      rw [List.map_cons, runDeb_cons, hobs]
      have hnext := ih { s with candidate := "1", candidate_since := t } hs
      simpa using hnext

/-- From a stable absent state whose pending candidate is the present
token acquired at instant zero, a sequence of present tokens at instants
in the closed interval from zero to the hold time promotes exactly when
the hold boundary is hit, emitting one ARRIVED transition. -/
theorem runDeb_ones_hold (ts : List ℚ) :
    (∀ t ∈ ts, 0 ≤ t ∧ t ≤ 10) →
      ((10 : ℚ) ∈ ts →
        (runDeb ⟨"0", "1", 0⟩ (ts.map fun t => ("1", t))).2 = [Direction.ARRIVED] ∧
        (runDeb ⟨"0", "1", 0⟩ (ts.map fun t => ("1", t))).1.debounced = "1") ∧
      ((10 : ℚ) ∉ ts →
        runDeb ⟨"0", "1", 0⟩ (ts.map fun t => ("1", t)) = (⟨"0", "1", 0⟩, [])) := by
  induction ts with
  | nil =>
      intro _
      refine ⟨fun habs => absurd habs (by simp), fun _ => rfl⟩
  | cons t rest ih =>
      intro h
      have hb := h t (by simp)
      have hrest : ∀ q ∈ rest, 0 ≤ q ∧ q ≤ 10 :=
        fun q hq => h q (List.mem_cons_of_mem _ hq)
      by_cases h10 : (10 : ℚ) ≤ t
      · have ht : t = (10 : ℚ) := le_antisymm hb.2 h10
        have hobs : observe ⟨"0", "1", 0⟩ "1" t =
            (⟨"1", "1", 0⟩, some Direction.ARRIVED) := by
          unfold observe
          simp [DEBOUNCE_SECONDS, h10]
        constructor
        · intro _
          rw [List.map_cons, runDeb_cons, hobs]
          have hst := runDeb_ones_stable rest ⟨"1", "1", 0⟩ rfl
          simp [hst.1, hst.2]
        · intro hnot
          exact absurd (by rw [ht]; exact List.mem_cons_self _ _) hnot
      · have hobs : observe ⟨"0", "1", 0⟩ "1" t = (⟨"0", "1", 0⟩, none) := by
          unfold observe
          simp [DEBOUNCE_SECONDS, h10]
        rw [List.map_cons, runDeb_cons, hobs]
        constructor
        · intro hmem
          have hmem' : (10 : ℚ) ∈ rest := by
            rcases List.mem_cons.1 hmem with heq | h'
            · exact absurd (heq ▸ le_refl (10 : ℚ)) h10
            · exact h'
          have := (ih hrest).1 hmem'
          simpa using this
        · intro hnmem
          have hnmem' : (10 : ℚ) ∉ rest := fun h' => hnmem (List.mem_cons_of_mem _ h')
          have := (ih hrest).2 hnmem'
          simp [this]

/-- Shape of one iteration on a non-empty line whose UTC date differs
from the open file: the row goes to the file that was open, then the
new date is opened and receives a header unconditionally. -/
theorem stepLine_rotate (st : Sess) (text utcDate : String) (m : ℚ)
    (ht : text ≠ "") (hd : utcDate ≠ st.today) :
    stepLine st text utcDate m =
      { st with
        today := utcDate,
        fs := fsAppend (fsEnsure (fsAppend st.fs st.today
            (Entry.record utcDate (parseLine text)
              ((observe st.deb (parseLine text) m).1).debounced text)) utcDate)
          utcDate Entry.header,
        deb := (observe st.deb (parseLine text) m).1 } := by
  simp [stepLine, ht, hd]

/-- From a stable absent state armed with the present candidate since
instant zero, an emitted transition forces the instant to be at least
the hold time. -/
theorem observe_armed_promote_time (now : ℚ)
    (hsome : ((observe ⟨"0", "1", 0⟩ "1" now).2).isSome = true) :
    DEBOUNCE_SECONDS ≤ now := by
  unfold observe at hsome
  split_ifs at hsome with h1 h2 h3 h4 h5
  · exact absurd hsome (by simp)
  · exact absurd hsome (by simp)
  · simpa using h5
  · exact absurd hsome (by simp)
  · exact absurd hsome (by simp)
  · exact absurd hsome (by simp)

/-! ## Claims -/

/-- Claim C1, counterexample: running from a fresh directory, the record
read on the second UTC date is written into the file of the first date,
because the row write happens before the rotation check; so a record can
land in the file of the wrong day. -/
theorem C1_counterexample :
    (runSess (initSess [] "2024-01-01")
        [Ev.line "hello" "2024-01-01" 0, Ev.line "world" "2024-01-02" 1]).map
      (fun st => fsLookup st.fs "2024-01-01") =
      some (some [Entry.header,
        Entry.record "2024-01-01" "" "" "hello",
        Entry.record "2024-01-02" "" "" "world"]) ∧
    ("2024-01-02" : String) ≠ "2024-01-01" := by
  exact ⟨by decide, by decide⟩

/-- Claim C1, amended: on a record whose UTC date differs from the open
file, the row is first written to the previously open file, and only
then does the writer rotate, switching today to the new date and
appending exactly one header to the new file; the first record of a new
UTC date therefore lands in the old file and later records of that date
go to the new file. -/
theorem C1_theorem (st : Sess) (text utcDate : String) (m : ℚ)
    (ht : text ≠ "") (hd : utcDate ≠ st.today) :
    (stepLine st text utcDate m).today = utcDate ∧
    fsLookup (stepLine st text utcDate m).fs st.today =
      some ((fsLookup st.fs st.today).getD [] ++
        [Entry.record utcDate (parseLine text)
          ((observe st.deb (parseLine text) m).1).debounced text]) ∧
    fsLookup (stepLine st text utcDate m).fs utcDate =
      some ((fsLookup st.fs utcDate).getD [] ++ [Entry.header]) := by
  rw [stepLine_rotate st text utcDate m ht hd]
  refine ⟨rfl, ?_, ?_⟩
  · rw [fsLookup_fsAppend_ne _ _ _ _ (Ne.symm hd),
      fsLookup_fsEnsure_ne _ _ _ (Ne.symm hd), fsLookup_fsAppend_self]
  · rw [fsLookup_fsAppend_self, fsLookup_fsEnsure_self, Option.getD_some,
      fsLookup_fsAppend_ne _ _ _ _ hd]

/-- Claim C1, witness instance of the amended statement. -/
theorem C1_witness :
    ("world" : String) ≠ "" ∧
    ("2024-01-02" : String) ≠ (initSess [] "2024-01-01").today ∧
    ((stepLine (initSess [] "2024-01-01") "world" "2024-01-02" 0).today = "2024-01-02" ∧
      fsLookup (stepLine (initSess [] "2024-01-01") "world" "2024-01-02" 0).fs
          (initSess [] "2024-01-01").today =
        some ((fsLookup (initSess [] "2024-01-01").fs (initSess [] "2024-01-01").today).getD [] ++
          [Entry.record "2024-01-02" (parseLine "world")
            ((observe (initSess [] "2024-01-01").deb (parseLine "world") 0).1).debounced "world"]) ∧
      fsLookup (stepLine (initSess [] "2024-01-01") "world" "2024-01-02" 0).fs "2024-01-02" =
        some ((fsLookup (initSess [] "2024-01-01").fs "2024-01-02").getD [] ++ [Entry.header])) :=
  ⟨by decide, by decide,
    C1_theorem (initSess [] "2024-01-01") "world" "2024-01-02" 0 (by decide) (by decide)⟩

/-- Claim C2, counterexample: a serial error whose reconnect attempt
itself raises is not caught by any handler, and the process terminates;
so not every transport failure is survived. -/
theorem C2_counterexample :
    stepEv (initSess [] "2024-01-01") (Ev.readErr false) = none ∧
    runSess (initSess [] "2024-01-01") [Ev.readErr false] = none :=
  ⟨rfl, rfl⟩

/-- Claim C2, amended: a serial error raised by a read inside the loop
body is caught in every state, the handler recreates the connection and
the loop resumes with retries unbounded; as long as every reconnect
attempt itself succeeds, no transport failure terminates the process,
but a serial error raised by the reconnect attempt is fatal. -/
theorem C2_theorem :
    (∀ (st : Sess) (evs : List Ev),
      (∀ e ∈ evs, reconnectsOk e = true) →
      (runSess st evs).isSome = true) ∧
    (∀ (st : Sess) (rest : List Ev),
      runSess st (Ev.readErr true :: rest) =
        runSess { st with connGen := st.connGen + 1 } rest) := by
  constructor
  · intro st evs
    induction evs generalizing st with
    | nil => intro _; rfl
    | cons e rest ih =>
        intro h
        have hrest : ∀ q ∈ rest, reconnectsOk q = true :=
          fun q hq => h q (List.mem_cons_of_mem _ hq)
        cases e with
        | line text d m => exact ih (stepLine st text d m) hrest
        | readErr ok =>
            have hok : ok = true := by
              have := h (Ev.readErr ok) (List.mem_cons_self _ _)
              simpa [reconnectsOk] using this
            subst hok
            exact ih { st with connGen := st.connGen + 1 } hrest
  · intro st rest
    rfl

/-- Claim C2, witness instance of the amended statement. -/
theorem C2_witness :
    (∀ e ∈ [Ev.readErr true, Ev.line "x" "2024-01-01" 0], reconnectsOk e = true) ∧
    (runSess (initSess [] "2024-01-01")
      [Ev.readErr true, Ev.line "x" "2024-01-01" 0]).isSome = true :=
  ⟨by decide, C2_theorem.1 (initSess [] "2024-01-01") _ (by decide)⟩

/-- Claim C3: over any run of non-empty tokens, the debounced value
changes only on a token equal to the pending candidate, different from
the debounced value, after at least the hold time has elapsed since the
candidate acquisition instant, and that acquisition instant is genuine:
either the candidate was inherited from the start state and every fed
token agreed with it, or the fed pair at the acquisition instant carried
exactly this token and every later fed token agreed with it. In
particular, with debounced zero, feeding one at time zero, zero at five
and one at six causes no promotion and emits nothing. -/
theorem C3_theorem :
    (∀ (s0 : DebounceState) (l : List (String × ℚ)) (tok : String) (now : ℚ),
      (∀ p ∈ l, p.1 ≠ "") →
      (runObs s0 l).debounced ≠ "" →
      (observe (runObs s0 l) tok now).1.debounced ≠ (runObs s0 l).debounced →
      tok = (runObs s0 l).candidate ∧ tok ≠ (runObs s0 l).debounced ∧
        DEBOUNCE_SECONDS ≤ now - (runObs s0 l).candidate_since ∧
        (((runObs s0 l).candidate = s0.candidate ∧
            (runObs s0 l).candidate_since = s0.candidate_since ∧
            ∀ p ∈ l, p.1 = tok) ∨
          ∃ l1 l2, l = l1 ++ (tok, (runObs s0 l).candidate_since) :: l2 ∧
            ∀ p ∈ l2, p.1 = tok)) ∧
    (runDeb ⟨"0", "0", 0⟩ [("1", 0), ("0", 5), ("1", 6)]).1.debounced = "0" ∧
    (runDeb ⟨"0", "0", 0⟩ [("1", 0), ("0", 5), ("1", 6)]).2 = [] := by
  refine ⟨?_, by decide, by decide⟩
  intro s0 l tok now hne hd hch
  obtain ⟨hcand, hneq, helapsed, _⟩ := observe_promote (runObs s0 l) tok now hd hch
  refine ⟨hcand, hneq, helapsed, ?_⟩
  rcases runObs_cand_provenance l s0 hne with ⟨hc, hs, hall⟩ | ⟨l1, l2, heq, hall⟩
  · left
    refine ⟨hc, hs, fun p hp => ?_⟩
    rw [hall p hp, ← hcand]
  · right
    refine ⟨l1, l2, ?_, fun p hp => ?_⟩
    · rw [hcand]; exact heq
    · rw [hall p hp, ← hcand]

/-- Claim C3, witness instance of the general statement. -/
theorem C3_witness :
    (∀ p ∈ ([] : List (String × ℚ)), p.1 ≠ "") ∧
    (runObs ⟨"0", "1", 0⟩ ([] : List (String × ℚ))).debounced ≠ "" ∧
    (observe (runObs ⟨"0", "1", 0⟩ ([] : List (String × ℚ))) "1" 12).1.debounced ≠
      (runObs ⟨"0", "1", 0⟩ ([] : List (String × ℚ))).debounced ∧
    "1" = (runObs ⟨"0", "1", 0⟩ ([] : List (String × ℚ))).candidate ∧
    DEBOUNCE_SECONDS ≤ 12 - (runObs ⟨"0", "1", 0⟩ ([] : List (String × ℚ))).candidate_since := by
  have hne : ∀ p ∈ ([] : List (String × ℚ)), p.1 ≠ "" := by decide
  have hd : (runObs ⟨"0", "1", 0⟩ ([] : List (String × ℚ))).debounced ≠ "" := by decide
  have hch : (observe (runObs ⟨"0", "1", 0⟩ ([] : List (String × ℚ))) "1" 12).1.debounced ≠
      (runObs ⟨"0", "1", 0⟩ ([] : List (String × ℚ))).debounced := by
    rw [runObs_nil]
    simp +decide [observe, DEBOUNCE_SECONDS, sub_zero]
  exact ⟨hne, hd, hch,
    (C3_theorem.1 ⟨"0", "1", 0⟩ [] "1" 12 hne hd hch).1,
    (C3_theorem.1 ⟨"0", "1", 0⟩ [] "1" 12 hne hd hch).2.2.1⟩

/-- Claim C4: starting from a stable absent state, feeding the present
token at time zero and then at any instants within the ten second
window, among them the instant ten, promotes the debounced value to
present with exactly one emitted transition, tagged ARRIVED; moreover
from the armed state a promotion can only be emitted at or after time
ten. -/
theorem C4_theorem (ts : List ℚ) (h : ∀ t ∈ ts, 0 ≤ t ∧ t ≤ 10)
    (hmem : (10 : ℚ) ∈ ts) :
    (runDeb ⟨"0", "0", 0⟩ (("1", 0) :: ts.map fun t => ("1", t))).2 =
      [Direction.ARRIVED] ∧
    (runDeb ⟨"0", "0", 0⟩ (("1", 0) :: ts.map fun t => ("1", t))).1.debounced = "1" ∧
    (∀ now : ℚ, ((observe ⟨"0", "1", 0⟩ "1" now).2).isSome = true →
      DEBOUNCE_SECONDS ≤ now) := by
  have hobs0 : observe ⟨"0", "0", 0⟩ "1" 0 = (⟨"0", "1", 0⟩, none) := by decide
  have hhold := (runDeb_ones_hold ts h).1 hmem
  rw [runDeb_cons, hobs0]
  exact ⟨by simpa using hhold.1, by simpa using hhold.2,
    fun now hsome => observe_armed_promote_time now hsome⟩

/-- Claim C4, witness instance. -/
theorem C4_witness :
    (∀ t ∈ [(5 : ℚ), 10], 0 ≤ t ∧ t ≤ 10) ∧ (10 : ℚ) ∈ [(5 : ℚ), 10] ∧
    (runDeb ⟨"0", "0", 0⟩ (("1", 0) :: ([(5 : ℚ), 10].map fun t => ("1", t)))).2 =
      [Direction.ARRIVED] :=
  ⟨by decide, by decide, (C4_theorem [5, 10] (by decide) (by decide)).1⟩

/-- Claim C5, counterexample: rotating to a date whose log file already
exists appends a second header row to that file, instead of appending
records without another header. -/
theorem C5_counterexample :
    (runSess (initSess [("2024-01-02", [Entry.header])] "2024-01-01")
        [Ev.line "a" "2024-01-02" 0]).map
      (fun st => fsLookup st.fs "2024-01-02") =
      some (some [Entry.header, Entry.header]) := by
  decide

/-- Claim C5, amended: at a UTC date rotation the header row is written
unconditionally to the newly opened file, whether or not the file
already existed; only the startup open writes the header conditionally,
on file absence. -/
theorem C5_theorem :
    (∀ (st : Sess) (text utcDate : String) (m : ℚ), text ≠ "" → utcDate ≠ st.today →
      fsLookup (stepLine st text utcDate m).fs utcDate =
        some ((fsLookup st.fs utcDate).getD [] ++ [Entry.header])) ∧
    (∀ (fs0 : Fs) (d : String), fsLookup fs0 d = none →
      fsLookup (initSess fs0 d).fs d = some [Entry.header]) ∧
    (∀ (fs0 : Fs) (d : String) (es : List Entry), fsLookup fs0 d = some es →
      fsLookup (initSess fs0 d).fs d = some es) := by
  refine ⟨?_, ?_, ?_⟩
  · intro st text utcDate m ht hd
    rw [stepLine_rotate st text utcDate m ht hd]
    rw [fsLookup_fsAppend_self, fsLookup_fsEnsure_self, Option.getD_some,
      fsLookup_fsAppend_ne _ _ _ _ hd]
  · intro fs0 d hnone
    simp [initSess, hnone, fsLookup_fsAppend_self, fsLookup_fsEnsure_self]
  · intro fs0 d es hsome
    simp [initSess, hsome, fsLookup_fsEnsure_self]

/-- Claim C5, witness instance of the amended statement. -/
theorem C5_witness :
    ("a" : String) ≠ "" ∧
    ("2024-01-02" : String) ≠
      (initSess [("2024-01-02", [Entry.header])] "2024-01-01").today ∧
    fsLookup (stepLine (initSess [("2024-01-02", [Entry.header])] "2024-01-01")
        "a" "2024-01-02" 0).fs "2024-01-02" =
      some ((fsLookup (initSess [("2024-01-02", [Entry.header])] "2024-01-01").fs
        "2024-01-02").getD [] ++ [Entry.header]) ∧
    fsLookup ([] : Fs) "2024-03-01" = none ∧
    fsLookup (initSess [] "2024-03-01").fs "2024-03-01" = some [Entry.header] :=
  ⟨by decide, by decide,
    C5_theorem.1 (initSess [("2024-01-02", [Entry.header])] "2024-01-01")
      "a" "2024-01-02" 0 (by decide) (by decide),
    by decide,
    C5_theorem.2.1 [] "2024-03-01" (by decide)⟩

/-- Claim C6: a completed run writes exactly one observation row per
non-empty line event, none for empty reads or caught serial errors, so
the total row count grows by the number of non-empty lines read. -/
theorem C6_theorem (st : Sess) (evs : List Ev)
    (h : (runSess st evs).isSome = true) :
    (runSess st evs).map (fun s1 => recordCount s1.fs) =
      some (recordCount st.fs + (evs.filter isDataLine).length) := by
  induction evs generalizing st with
  | nil => simp [runSess]
  | cons e rest ih =>
      cases e with
      | line text d m =>
          have hstep : runSess st (Ev.line text d m :: rest) =
              runSess (stepLine st text d m) rest := rfl
          rw [hstep] at h ⊢
          rw [ih _ h]
          by_cases ht : text = ""
          · simp [recordCount_stepLine, ht, List.filter_cons, isDataLine]
          · simp [recordCount_stepLine, ht, List.filter_cons, isDataLine]
            omega
      | readErr ok =>
          cases ok with
          | true =>
              have hstep : runSess st (Ev.readErr true :: rest) =
                  runSess { st with connGen := st.connGen + 1 } rest := rfl
              rw [hstep] at h ⊢
              rw [ih _ h]
              simp [List.filter_cons, isDataLine]
          | false => exact absurd h (by simp [runSess, stepEv])

/-- Claim C6, witness instance. -/
theorem C6_witness :
    (runSess (initSess [] "2024-01-01")
        [Ev.line "a" "2024-01-01" 0, Ev.line "" "2024-01-01" 1, Ev.readErr true]).isSome
      = true ∧
    (runSess (initSess [] "2024-01-01")
        [Ev.line "a" "2024-01-01" 0, Ev.line "" "2024-01-01" 1, Ev.readErr true]).map
      (fun s1 => recordCount s1.fs) =
      some (recordCount (initSess [] "2024-01-01").fs +
        ([Ev.line "a" "2024-01-01" 0, Ev.line "" "2024-01-01" 1,
          Ev.readErr true].filter isDataLine).length) :=
  ⟨by decide, C6_theorem (initSess [] "2024-01-01") _ (by decide)⟩

/-- Claim C7: a caught serial error whose reconnect succeeds changes
only the connection: the debounce state, the log directory and the open
file date are all exactly preserved, and the loop then resumes on the
remaining input. -/
theorem C7_theorem (st : Sess) :
    (stepEv st (Ev.readErr true)).map Sess.deb = some st.deb ∧
    (stepEv st (Ev.readErr true)).map Sess.fs = some st.fs ∧
    (stepEv st (Ev.readErr true)).map Sess.today = some st.today ∧
    (∀ rest : List Ev, runSess st (Ev.readErr true :: rest) =
      runSess { st with connGen := st.connGen + 1 } rest) :=
  ⟨rfl, rfl, rfl, fun _ => rfl⟩

/-- Claim C8, counterexample: a line carrying the sentinel but a second
field other than zero or one is parsed to that field verbatim, a token
outside the claimed set. -/
theorem C8_counterexample :
    parseLine "$JYBSS,2, , , *" = "2" ∧
    ("2" : String) ≠ "0" ∧ ("2" : String) ≠ "1" ∧ ("2" : String) ≠ "" := by
  exact ⟨by decide, by decide, by decide, by decide⟩

/-- Claim C8, amended: a line not beginning with the sentinel parses to
the empty token; a line beginning with the sentinel parses to its second
comma-separated field taken verbatim, with no guarantee of membership in
the zero one empty set; well-formed device frames do yield zero or one. -/
theorem C8_theorem :
    (∀ line : String, startsWithChars sentinelChars line.data = false →
      parseLine line = "") ∧
    (∀ line : String, startsWithChars sentinelChars line.data = true →
      parseLine line = (splitComma line).getD 1 "") ∧
    parseLine "$JYBSS,0, , , *" = "0" ∧ parseLine "$JYBSS,1, , , *" = "1" := by
  refine ⟨?_, ?_, by decide, by decide⟩
  · intro line h
    simp [parseLine, h]
  · intro line h
    simp only [parseLine, h, if_true]
    cases hs : splitComma line with
    | nil => rfl
    | cons a tl =>
        cases tl with
        | nil => rfl
        | cons tok tl2 => rfl

/-- Claim C8, witness instance of the amended statement. -/
theorem C8_witness :
    startsWithChars sentinelChars ("hello" : String).data = false ∧
    parseLine "hello" = "" ∧
    startsWithChars sentinelChars ("$JYBSS,0, , , *" : String).data = true ∧
    parseLine "$JYBSS,0, , , *" = (splitComma "$JYBSS,0, , , *").getD 1 "" :=
  ⟨by decide, C8_theorem.1 "hello" (by decide), by decide,
    C8_theorem.2.1 "$JYBSS,0, , , *" (by decide)⟩

/-- Claim C9: the quote escaping of the raw line is invertible; undoing
the doubled quotes recovers every raw line byte for byte, including
lines containing double-quote characters. -/
theorem C9_theorem : ∀ s : String, unescapeRaw (escapeRaw s) = s := by
  intro s
  cases s with
  | mk data =>
      show String.mk (unescapeQuotes (escapeQuotes data)) = String.mk data
      rw [unescapeQuotes_escapeQuotes]

/-- Claim C10: a known debounced value never reverts to the unknown
empty value, neither in one update nor across any run, and every update
either preserves the debounced value or stores the current non-empty
raw token. -/
theorem C10_theorem :
    (∀ (s : DebounceState) (raw : String) (now : ℚ),
      s.debounced ≠ "" → (observe s raw now).1.debounced ≠ "") ∧
    (∀ (s : DebounceState) (raw : String) (now : ℚ),
      (observe s raw now).1.debounced = s.debounced ∨
        ((observe s raw now).1.debounced = raw ∧ raw ≠ "")) ∧
    (∀ (s : DebounceState) (l : List (String × ℚ)),
      s.debounced ≠ "" → (runObs s l).debounced ≠ "") :=
  ⟨observe_debounced_ne_empty, observe_debounced_cases,
    fun s l => runObs_debounced_ne_empty l s⟩

/-- Claim C10, witness instance. -/
theorem C10_witness :
    (⟨"1", "1", 0⟩ : DebounceState).debounced ≠ "" ∧
    (observe ⟨"1", "1", 0⟩ "0" 5).1.debounced ≠ "" ∧
    (runObs ⟨"1", "1", 0⟩ [("0", 3), ("0", 20)]).debounced ≠ "" :=
  ⟨by decide, C10_theorem.1 ⟨"1", "1", 0⟩ "0" 5 (by decide),
    C10_theorem.2.2 ⟨"1", "1", 0⟩ [("0", 3), ("0", 20)] (by decide)⟩

end Mmwave
